import Mathlib

/-!
Verification development for the log-segmentation engine of the
grafana_uploader repository (src/log_analyzer.py).

The Python module is shallowly embedded here: the `analyze` method becomes a
pure function over an explicit CSV data value, the instance fields mutated by
the scan become an explicit `LoopState` threaded through a step function, and
Python exceptions become the error side of `Except`.  `UnboundLocalError`
(reference to a local variable that was never assigned, which the source can
hit through its `area_int` local) is modelled by storing such locals as
`Option` values and raising `PyError.unboundLocalError` at sites that read
them.  An error value carries the loop state at the raise point, mirroring
the Python instance state left behind when the method raises.
-/

/-- An input row: the list of cell values, positionally aligned with the
header.  Mirrors what csv.DictReader yields for one well-formed line. -/
abbrev Row := List String

/-- The header plus data rows of a parsed CSV file, the input of analyze. -/
structure CsvData where
  header : List String
  rows : List Row
deriving DecidableEq, Repr

/-- Python whitespace test of str.strip: space, tab, newline, carriage
return, vertical tab, form feed. -/
def isPySpace (c : Char) : Bool :=
  c = ' ' || c = '\t' || c = '\n' || c = '\r' || c.toNat = 11 || c.toNat = 12

/-- Python str.strip (whitespace trimming at both ends), as used throughout
analyze.  Implemented over the character list so that it evaluates inside
the kernel. -/
def pyStrip (s : String) : String :=
  String.mk (((s.data.dropWhile isPySpace).reverse.dropWhile isPySpace).reverse)

/-- Python str.lower, used when matching header names. -/
def pyLower (s : String) : String := String.mk (s.data.map Char.toLower)

/-- The header scan of lines 142-143 of the source: the first field name
whose stripped, lower-cased form equals the target. -/
def findKey (names : List String) (target : String) : Option String :=
  names.find? (fun k => pyLower (pyStrip k) == target)

/-- Dictionary access row[key] for a DictReader row: the header names are
zipped with the row cells and the first binding of the key is returned. -/
def rowGet (fieldnames : List String) (vals : Row) (key : String) : Option String :=
  List.lookup key (fieldnames.zip vals)

/-- Value of a nonempty all-digit character list, used by pyInt. -/
def digitsVal : List Char → Option Nat
  | [] => none
  | cs =>
    if cs.all (fun c => c.isDigit) then
      some (cs.foldl (fun n c => 10 * n + (c.toNat - 48)) 0)
    else none

/-- Python int(s) on a string: optional sign and decimal digits after
trimming surrounding whitespace; anything else raises ValueError, which is
modelled as none. -/
def pyInt (s : String) : Option Int :=
  match (pyStrip s).toList with
  | [] => none
  | c :: cs =>
    if c = '-' then (digitsVal cs).map (fun n => -(n : Int))
    else if c = '+' then (digitsVal cs).map (fun n => (n : Int))
    else (digitsVal (c :: cs)).map (fun n => (n : Int))

/-- The GPS_AREA IntEnum of the source. -/
inductive GPS_AREA where
  | GPS_INIT
  | GPS_TRACKSENSOR_1
  | GPS_TRACKSENSOR_2
  | GPS_TRACKSENSOR_3
  | GPS_TRACKSENSOR_4
  | GPS_TRACKSENSOR_5
  | GPS_TRACKSENSOR_6
  | GPS_TRACKSENSOR_7
  | GPS_TRACKSENSOR_8
  | GPS_TRACKSENSOR_9
  | GPS_RACE_START
  | GPS_RACE_END
  | GPS_UNKNOWN
deriving DecidableEq, Repr

/-- Integer value of a GPS_AREA member (IntEnum values of the source). -/
def GPS_AREA.toInt : GPS_AREA → Int
  | .GPS_INIT => 0
  | .GPS_TRACKSENSOR_1 => 1
  | .GPS_TRACKSENSOR_2 => 2
  | .GPS_TRACKSENSOR_3 => 3
  | .GPS_TRACKSENSOR_4 => 4
  | .GPS_TRACKSENSOR_5 => 5
  | .GPS_TRACKSENSOR_6 => 6
  | .GPS_TRACKSENSOR_7 => 7
  | .GPS_TRACKSENSOR_8 => 8
  | .GPS_TRACKSENSOR_9 => 9
  | .GPS_RACE_START => 10
  | .GPS_RACE_END => 11
  | .GPS_UNKNOWN => 99

/-- The enum constructor GPS_AREA(n): the member with value n, or none when
n is not a member value (Python raises ValueError there). -/
def GPS_AREA.ofInt (n : Int) : Option GPS_AREA :=
  if n = 0 then some .GPS_INIT
  else if n = 1 then some .GPS_TRACKSENSOR_1
  else if n = 2 then some .GPS_TRACKSENSOR_2
  else if n = 3 then some .GPS_TRACKSENSOR_3
  else if n = 4 then some .GPS_TRACKSENSOR_4
  else if n = 5 then some .GPS_TRACKSENSOR_5
  else if n = 6 then some .GPS_TRACKSENSOR_6
  else if n = 7 then some .GPS_TRACKSENSOR_7
  else if n = 8 then some .GPS_TRACKSENSOR_8
  else if n = 9 then some .GPS_TRACKSENSOR_9
  else if n = 10 then some .GPS_RACE_START
  else if n = 11 then some .GPS_RACE_END
  else if n = 99 then some .GPS_UNKNOWN
  else none

/-- The GrSections IntEnum of the source. -/
inductive GrSections where
  | SECTION_ENTERING
  | SECTION_DOWNHILL
  | SECTION_UPHILLSTANDBY
  | SECTION_UPHILL
  | SECTION_UPHILLSLOWDOWN
  | SECTION_LANDINGIC
  | SECTION_LANDING
  | SECTION_GARAGE
  | SECTION_BOARDINGIC
  | SECTION_BOARDING
  | SECTION_UNKNOWN
deriving DecidableEq, Repr

/-- MODE_TABLE of the source: the display string of a section; none for
SECTION_UNKNOWN, which has no entry in the dict. -/
def MODE_TABLE : GrSections → Option String
  | .SECTION_ENTERING => some "ENTERING"
  | .SECTION_DOWNHILL => some "DOWNHILL"
  | .SECTION_UPHILLSTANDBY => some "UPHILL_STANDBY"
  | .SECTION_UPHILL => some "UPHILL"
  | .SECTION_UPHILLSLOWDOWN => some "UPHILL_SLOWDOWN"
  | .SECTION_LANDINGIC => some "LANDING_IC"
  | .SECTION_LANDING => some "LANDING"
  | .SECTION_GARAGE => some "GARAGE"
  | .SECTION_BOARDING => some "BOARDING"
  | .SECTION_BOARDINGIC => some "BOARDING_IC"
  | .SECTION_UNKNOWN => none

/-- STR_TO_ENUM of the source: the inverse of MODE_TABLE. -/
def STR_TO_ENUM (s : String) : Option GrSections :=
  if s = "ENTERING" then some .SECTION_ENTERING
  else if s = "DOWNHILL" then some .SECTION_DOWNHILL
  else if s = "UPHILL_STANDBY" then some .SECTION_UPHILLSTANDBY
  else if s = "UPHILL" then some .SECTION_UPHILL
  else if s = "UPHILL_SLOWDOWN" then some .SECTION_UPHILLSLOWDOWN
  else if s = "LANDING_IC" then some .SECTION_LANDINGIC
  else if s = "LANDING" then some .SECTION_LANDING
  else if s = "GARAGE" then some .SECTION_GARAGE
  else if s = "BOARDING" then some .SECTION_BOARDING
  else if s = "BOARDING_IC" then some .SECTION_BOARDINGIC
  else none

/-- LogEntry of the source.  The Python annotation of area_id says
Optional[GPS_AREA], but the code also passes the raw parsed integer
(the area_int local) at the SECTION_CHANGE call sites, and IntEnum members
are integers, so the field is embedded as an optional integer; GPS_AREA
members pass through GPS_AREA.toInt. -/
structure LogEntry where
  time : String
  context : String
  log_type : String
  area_id : Option Int := none
  section_id : Option GrSections := none
deriving DecidableEq, Repr

/-- One race_times value: the dict literal of the source is
start-time plus nullable end time.  The end key is named endTime because
end is a reserved word in Lean. -/
structure RaceTimes where
  start : String
  endTime : Option String
deriving DecidableEq, Repr

/-- AnalysisResult of the source.  The two integer-keyed dicts are embedded
as insertion-ordered association lists. -/
structure AnalysisResult where
  first_time : Option String := none
  last_time : Option String := none
  total_race_count : Nat := 0
  logs : List LogEntry := []
  race_times : List (Nat × RaceTimes) := []
  race_section_changes : List (Nat × List (GrSections × String)) := []
deriving DecidableEq, Repr

/-- Dictionary read d[k] on an insertion-ordered association list. -/
def dictGet {α : Type} (k : Nat) : List (Nat × α) → Option α
  | [] => none
  | p :: rest => if p.1 = k then some p.2 else dictGet k rest

/-- Dictionary write d[k] = v: replace in place when the key exists,
append otherwise (Python dict insertion order). -/
def setKey {α : Type} : List (Nat × α) → Nat → α → List (Nat × α)
  | [], k, v => [(k, v)]
  | p :: rest, k, v => if p.1 = k then (k, v) :: rest else p :: setKey rest k v

/-- The guarded end-time write of the source (lines 185-186 and 221-222):
when the race key is present, its end field is set to the given time. -/
def setEndTime (m : List (Nat × RaceTimes)) (k : Nat) (time : String) : List (Nat × RaceTimes) :=
  match dictGet k m with
  | some rt => setKey m k ⟨rt.start, some time⟩
  | none => m

/-- The errors the embedded code can raise. -/
inductive PyError where
  | keyError : String → PyError
  | unboundLocalError : String → PyError
deriving DecidableEq, Repr

deriving instance DecidableEq for Except

/-- LogAnalyzer._add_log: append one LogEntry to result.logs. -/
def add_log (res : AnalysisResult) (time context log_type : String)
    (area_id : Option Int) (section_id : Option GrSections) : AnalysisResult :=
  { res with logs := res.logs ++ [{ time := time
                                    context := context
                                    log_type := log_type
                                    area_id := area_id
                                    section_id := section_id }] }

/-- LogAnalyzer._record_section_change: append (section_id, time) to the
current race's change list unless it equals the last entry; the setdefault
call inserts the race key even when the append is skipped. -/
def record_section_change (res : AnalysisResult) (race_count : Nat)
    (section_id : GrSections) (time : String) : AnalysisResult :=
  let changes_list := (dictGet race_count res.race_section_changes).getD []
  let new_list :=
    if changes_list = [] ∨ changes_list.getLast? ≠ some (section_id, time) then
      changes_list ++ [(section_id, time)]
    else changes_list
  { res with race_section_changes := setKey res.race_section_changes race_count new_list }

/-- LogAnalyzer._add_section_change_log: log a SECTION_CHANGE entry and
record the change.  The second argument is the value the source passes as
current_area_id, which at every call site is the raw area_int local. -/
def add_section_change_log (res : AnalysisResult) (race_count : Nat) (time : String)
    (current_area_id : Int) (section_id : GrSections) : AnalysisResult :=
  let context := (MODE_TABLE section_id).getD "SECTION_UNKNOWN"
  let res := add_log res time context "SECTION_CHANGE" (some current_area_id) (some section_id)
  record_section_change res race_count section_id time

/-- The mutable state of one analyze invocation: the result object under
construction, the instance fields, and the loop locals.  Locals that Python
may leave unassigned (area_int, section_id) are Options, none meaning
unassigned. -/
structure LoopState where
  res : AnalysisResult := {}
  prev_area : Option GPS_AREA := none
  prev_section : Option GrSections := none
  race_count : Nat := 0
  time : String := ""
  area_int : Option Int := none
  section_id : Option GrSections := none
deriving DecidableEq, Repr

/-- The guarded area parse of lines 155-162: current_area_id defaults to
GPS_UNKNOWN; inside the try block, area_int is assigned the parsed integer
and current_area_id the corresponding enum member; ValueError and KeyError
are swallowed, leaving area_int at its previous binding when int() fails or
the column is absent, and leaving current_area_id at GPS_UNKNOWN whenever
the enum constructor fails. -/
def parseArea (fieldnames : List String) (area_key : Option String)
    (old_area_int : Option Int) (vals : Row) : GPS_AREA × Option Int :=
  match area_key with
  | none => (GPS_AREA.GPS_UNKNOWN, old_area_int)
  | some ak =>
    match rowGet fieldnames vals ak with
    | none => (GPS_AREA.GPS_UNKNOWN, old_area_int)
    | some areaRaw =>
      if pyStrip areaRaw = "" then (GPS_AREA.GPS_UNKNOWN, old_area_int)
      else
        match pyInt areaRaw with
        | none => (GPS_AREA.GPS_UNKNOWN, old_area_int)
        | some n =>
          match GPS_AREA.ofInt n with
          | none => (GPS_AREA.GPS_UNKNOWN, some n)
          | some a => (a, some n)

/-- The body of one loop iteration after the per-row parsing (lines
164-213 of the source): first-row initialization, the boarding-approach
boundary, the plain section change, or no change.  The incoming state is
first updated with the freshly assigned loop locals (time, section_id,
area_int), then the branch logic runs; reads of the possibly-unassigned
area_int local raise unboundLocalError carrying the state at that point. -/
def stepParsed (i : Nat) (time : String) (section_id : GrSections)
    (current_area_id : GPS_AREA) (area_int : Option Int) (st0 : LoopState) :
    Except (PyError × LoopState) LoopState :=
  let st := { st0 with time := time, section_id := some section_id, area_int := area_int }
  if i = 0 then
    let res := { st.res with
                 first_time := some time
                 race_times := setKey st.res.race_times 0 ⟨time, none⟩ }
    let res := add_log res time ("============== RACE " ++ toString (0 : Nat) ++ " START ==============")
                 "RACE_INFO" (some current_area_id.toInt) (some section_id)
    match area_int with
    | none => .error (.unboundLocalError "area_int", { st with res := res, race_count := 0 })
    | some ai =>
      let res := add_section_change_log res 0 time ai section_id
      .ok { st with
            res := res
            race_count := 0
            prev_area := some current_area_id
            prev_section := some section_id }
  else
    let is_boarding_ic_start : Bool :=
      section_id == GrSections.SECTION_BOARDINGIC &&
        st.prev_section != some GrSections.SECTION_BOARDINGIC
    if is_boarding_ic_start then
      let res := { st.res with race_times := setEndTime st.res.race_times st.race_count time }
      match area_int with
      | none => .error (.unboundLocalError "area_int", { st with res := res })
      | some ai =>
        let res := add_section_change_log res st.race_count time ai section_id
        let race_count := st.race_count + 1
        let res := add_log res time ("============== RACE " ++ toString race_count ++ " START ==============")
                     "RACE_INFO" (some current_area_id.toInt) (some section_id)
        let res := add_section_change_log res race_count time ai section_id
        let res := { res with race_times := setKey res.race_times race_count ⟨time, none⟩ }
        .ok { st with
              res := res
              race_count := race_count
              prev_area := some current_area_id
              prev_section := some section_id }
    else if some section_id ≠ st.prev_section then
      match area_int with
      | none => .error (.unboundLocalError "area_int", st)
      | some ai =>
        let res := add_section_change_log st.res st.race_count time ai section_id
        .ok { st with
              res := res
              prev_area := some current_area_id
              prev_section := some section_id }
    else
      .ok { st with prev_area := some current_area_id, prev_section := some section_id }

/-- One iteration of the row loop of analyze (lines 149-213).  Statement
order follows the source: the per-row lookups and parses run first, then
the branch logic of stepParsed. -/
def stepRow (fieldnames : List String) (area_key : Option String) (section_key : String)
    (i : Nat) (vals : Row) (st : LoopState) : Except (PyError × LoopState) LoopState :=
  match rowGet fieldnames vals "time" with
  | none => .error (.keyError "time", st)
  | some timeRaw =>
    let time := pyStrip timeRaw
    match rowGet fieldnames vals section_key with
    | none => .error (.keyError section_key, { st with time := time })
    | some sectionRaw =>
      let section_id := (STR_TO_ENUM (pyStrip sectionRaw)).getD GrSections.SECTION_UNKNOWN
      match parseArea fieldnames area_key st.area_int vals with
      | (current_area_id, area_int) =>
        stepParsed i time section_id current_area_id area_int st

/-- The row loop itself: fold stepRow over the remaining rows, stopping at
the first raised error. -/
def runRows (fieldnames : List String) (area_key : Option String) (section_key : String) :
    Nat → List Row → LoopState → Except (PyError × LoopState) LoopState
  | _, [], st => .ok st
  | i, vals :: rest, st =>
    match stepRow fieldnames area_key section_key i vals st with
    | .error e => .error e
    | .ok st' => runRows fieldnames area_key section_key (i + 1) rest st'

/-- The epilogue of analyze (lines 218-229): record last_time, close the
open race, emit the final section-change entry (reading the loop locals,
which are unassigned when no row was processed), and set total_race_count
to max(0, race_count). -/
def finishScan (st : LoopState) : Except (PyError × LoopState) LoopState :=
  let res := { st.res with last_time := some st.time }
  let res := { res with race_times := setEndTime res.race_times st.race_count st.time }
  let st := { st with res := res }
  match st.area_int with
  | none => .error (.unboundLocalError "area_int", st)
  | some ai =>
    match st.section_id with
    | none => .error (.unboundLocalError "section_id", st)
    | some sid =>
      let res := add_section_change_log st.res st.race_count st.time ai sid
      let res := { res with total_race_count := max 0 st.race_count }
      .ok { st with res := res }

/-- The message of the KeyError of line 146 (quotation marks elided). -/
def missingSectionMsg : String := "CSV에 section 열이 없습니다."

/-- LogAnalyzer.analyze as a pure scan: header handling (lines 138-146),
the row loop, and the epilogue, returning either the final state or the
error and the state at the raise point. -/
def analyzeCore (csv : CsvData) : Except (PyError × LoopState) LoopState :=
  let fieldnames := csv.header.map pyStrip
  let area_key := findKey fieldnames "area"
  match findKey fieldnames "section" with
  | none => .error (.keyError missingSectionMsg, {})
  | some section_key =>
    match runRows fieldnames area_key section_key 0 csv.rows {} with
    | .error e => .error e
    | .ok st => finishScan st

/-- The value analyze delivers to its caller: the AnalysisResult on normal
return, the propagated exception otherwise. -/
def analyzeResult (csv : CsvData) : Except PyError AnalysisResult :=
  match analyzeCore csv with
  | .ok st => .ok st.res
  | .error (e, _) => .error e

/-- The LogAnalyzer instance: the fields set by __init__. -/
structure LogAnalyzer where
  result : AnalysisResult := {}
  prev_area : Option GPS_AREA := none
  prev_section : Option GrSections := none
  race_count : Nat := 0
deriving DecidableEq, Repr

/-- LogAnalyzer.analyze as a method: lines 132-135 overwrite every instance
field before the scan starts, so the incoming instance state is dead and the
outcome is a function of the input alone; the returned instance holds the
state the scan left behind. -/
def LogAnalyzer.analyze (_self : LogAnalyzer) (csv : CsvData) :
    LogAnalyzer × Except PyError AnalysisResult :=
  match analyzeCore csv with
  | .ok st =>
    ({ result := st.res
       prev_area := st.prev_area
       prev_section := st.prev_section
       race_count := st.race_count }, .ok st.res)
  | .error (e, st) =>
    ({ result := st.res
       prev_area := st.prev_area
       prev_section := st.prev_section
       race_count := st.race_count }, .error e)

/-- Python truthiness test applied to an Optional[str]: false for None and
for the empty string. -/
def pyTruthy : Option String → Bool
  | none => false
  | some s => s ≠ ""

/-- The file-name sanitization of save_logs_to_txt (line 248): the call of
str.replace with the single-character pattern ":" and replacement "_",
which is a character map. -/
def pyReplaceColon (s : String) : String :=
  String.mk (s.data.map (fun c => if c = ':' then '_' else c))

/-- The per-entry line format of save_logs_to_txt (lines 260-266). -/
def renderEntry (e : LogEntry) : String :=
  if e.log_type = "RACE_INFO" then "\n" ++ e.context ++ "\n"
  else "[" ++ e.time ++ "]     " ++ e.context ++ "\n"

/-- LogAnalyzer.save_logs_to_txt as a pure function: none models the early
return with no file written; otherwise the produced file name and the list
of lines written. -/
def save_logs_to_txt (result : AnalysisResult) : Option (String × List String) :=
  if ¬ pyTruthy result.first_time ∨ ¬ pyTruthy result.last_time then none
  else
    let ft := result.first_time.getD ""
    let lt := result.last_time.getD ""
    let file_name := pyReplaceColon ft ++ "~" ++ pyReplaceColon lt ++ ".txt"
    let output_lines :=
      ("전체 시간대: " ++ ft ++ " - " ++ lt ++ "\n") ::
      ("총 레이스 횟수: " ++ toString result.total_race_count ++ "\n\n") ::
      result.logs.map renderEntry
    some (file_name, output_lines)

/-!
Spec-side definitions.  These follow the words of the specification and the
claims (counts of boarding-approach entry transitions, the timestamp of the
first such transition, parsed per-row values) and are compared with the
embedded code in the refinement theorems below.
-/

/-- The parsed section of one row, as the spec describes row parsing. -/
def specParsedSection (fieldnames : List String) (section_key : String) (vals : Row) : GrSections :=
  (STR_TO_ENUM (pyStrip ((rowGet fieldnames vals section_key).getD ""))).getD
    GrSections.SECTION_UNKNOWN

/-- The parsed timestamp of one row, as the spec describes row parsing. -/
def specParsedTime (fieldnames : List String) (vals : Row) : String :=
  pyStrip ((rowGet fieldnames vals "time").getD "")

/-- The per-row (section, timestamp) sequence of an input, as the spec
describes the scan. -/
def specParsedPairs (csv : CsvData) : List (GrSections × String) :=
  let fieldnames := csv.header.map pyStrip
  match findKey fieldnames "section" with
  | none => []
  | some sk =>
    csv.rows.map (fun v => (specParsedSection fieldnames sk v, specParsedTime fieldnames v))

/-- The number of boarding-approach entry transitions of a section
sequence: positions after the first where the section becomes
SECTION_BOARDINGIC from a different previous section. -/
def countBoardingTransitions : List GrSections → Nat
  | [] => 0
  | [_] => 0
  | a :: b :: rest =>
    (if b = GrSections.SECTION_BOARDINGIC ∧ a ≠ GrSections.SECTION_BOARDINGIC then 1 else 0)
      + countBoardingTransitions (b :: rest)

/-- The spec count of boarding-approach entry transitions of an input. -/
def specBoardingTransitionCount (csv : CsvData) : Nat :=
  countBoardingTransitions ((specParsedPairs csv).map Prod.fst)

/-- The timestamp of the row triggering the first boarding-approach entry
transition, when one exists. -/
def specFirstTransitionTime : List (GrSections × String) → Option String
  | [] => none
  | [_] => none
  | (a, _) :: (b, t) :: rest =>
    if b = GrSections.SECTION_BOARDINGIC ∧ a ≠ GrSections.SECTION_BOARDINGIC then some t
    else specFirstTransitionTime ((b, t) :: rest)

/-!
Lemmas about the association-list dictionary operations.
-/

theorem dictGet_setKey_self {α : Type} (m : List (Nat × α)) (k : Nat) (v : α) :
    dictGet k (setKey m k v) = some v := by
  induction m with
  | nil => simp [setKey, dictGet]
  | cons p rest ih =>
    by_cases h : p.1 = k
    · simp [setKey, h, dictGet]
    · simp [setKey, h, dictGet, ih]

theorem dictGet_setKey_ne {α : Type} (m : List (Nat × α)) (k k' : Nat) (v : α)
    (h : k' ≠ k) : dictGet k' (setKey m k v) = dictGet k' m := by
  induction m with
  | nil =>
    simp only [setKey, dictGet]
    rw [if_neg (fun hh => h (hh.symm))]
  | cons p rest ih =>
    by_cases hp : p.1 = k
    · subst hp
      simp only [setKey, if_pos rfl, dictGet]
      rw [if_neg (fun hh : p.1 = k' => h hh.symm), if_neg (fun hh : p.1 = k' => h hh.symm)]
    · simp only [setKey, if_neg hp, dictGet]
      by_cases hk : p.1 = k'
      · rw [if_pos hk, if_pos hk]
      · rw [if_neg hk, if_neg hk, ih]

theorem mem_setKey {α : Type} (m : List (Nat × α)) (k : Nat) (v : α) (p : Nat × α)
    (h : p ∈ setKey m k v) : p = (k, v) ∨ p ∈ m := by
  induction m with
  | nil =>
    simp only [setKey, List.mem_singleton] at h
    exact Or.inl h
  | cons q rest ih =>
    by_cases hq : q.1 = k
    · simp only [setKey, if_pos hq, List.mem_cons] at h
      rcases h with h | h
      · exact Or.inl h
      · exact Or.inr (List.mem_cons_of_mem _ h)
    · simp only [setKey, if_neg hq, List.mem_cons] at h
      rcases h with h | h
      · exact Or.inr (by simp [h])
      · rcases ih h with h' | h'
        · exact Or.inl h'
        · exact Or.inr (List.mem_cons_of_mem _ h')

theorem dictGet_mem {α : Type} (m : List (Nat × α)) (k : Nat) (v : α)
    (h : dictGet k m = some v) : (k, v) ∈ m := by
  induction m with
  | nil => simp [dictGet] at h
  | cons p rest ih =>
    by_cases hp : p.1 = k
    · simp only [dictGet, if_pos hp, Option.some.injEq] at h
      have : p = (k, v) := by
        cases p
        simp only [Prod.mk.injEq]
        exact ⟨hp, h⟩
      rw [← this]
      exact List.mem_cons_self _ _
    · simp only [dictGet, if_neg hp] at h
      exact List.mem_cons_of_mem _ (ih h)

theorem dictGet_isSome_iff {α : Type} (m : List (Nat × α)) (k : Nat) :
    (dictGet k m).isSome ↔ k ∈ m.map Prod.fst := by
  induction m with
  | nil => simp [dictGet]
  | cons p rest ih =>
    by_cases hp : p.1 = k
    · simp only [dictGet, if_pos hp, Option.isSome_some, List.map_cons, List.mem_cons, true_iff]
      exact Or.inl hp.symm
    · simp only [dictGet, if_neg hp, List.map_cons, List.mem_cons, ih]
      constructor
      · exact Or.inr
      · intro hh
        rcases hh with hh | hh
        · exact absurd hh.symm hp
        · exact hh

theorem map_fst_setKey_of_mem {α : Type} (m : List (Nat × α)) (k : Nat) (v : α)
    (h : k ∈ m.map Prod.fst) : (setKey m k v).map Prod.fst = m.map Prod.fst := by
  induction m with
  | nil => simp at h
  | cons p rest ih =>
    by_cases hp : p.1 = k
    · simp [setKey, hp]
    · simp only [List.map_cons, List.mem_cons] at h
      rcases h with h | h
      · exact absurd h.symm hp
      · simp [setKey, hp, ih h]

theorem map_fst_setKey_of_not_mem {α : Type} (m : List (Nat × α)) (k : Nat) (v : α)
    (h : k ∉ m.map Prod.fst) : (setKey m k v).map Prod.fst = m.map Prod.fst ++ [k] := by
  induction m with
  | nil => simp [setKey]
  | cons p rest ih =>
    simp only [List.map_cons, List.mem_cons] at h
    push_neg at h
    rw [setKey, if_neg (fun hh : p.1 = k => h.1 hh.symm)]
    simp [ih h.2]

theorem map_fst_setEndTime (m : List (Nat × RaceTimes)) (k : Nat) (t : String) :
    (setEndTime m k t).map Prod.fst = m.map Prod.fst := by
  unfold setEndTime
  cases h : dictGet k m with
  | none => rfl
  | some rt =>
    exact map_fst_setKey_of_mem m k _ ((dictGet_isSome_iff m k).mp (by simp [h]))

theorem dictGet_setEndTime_self (m : List (Nat × RaceTimes)) (k : Nat) (t : String)
    (rt : RaceTimes) (h : dictGet k m = some rt) :
    dictGet k (setEndTime m k t) = some ⟨rt.start, some t⟩ := by
  unfold setEndTime
  rw [h]
  exact dictGet_setKey_self m k _

theorem setEndTime_of_none (m : List (Nat × RaceTimes)) (k : Nat) (t : String)
    (h : dictGet k m = none) : setEndTime m k t = m := by
  unfold setEndTime
  rw [h]

theorem dictGet_setEndTime_ne (m : List (Nat × RaceTimes)) (k k' : Nat) (t : String)
    (h : k' ≠ k) : dictGet k' (setEndTime m k t) = dictGet k' m := by
  unfold setEndTime
  cases hg : dictGet k m with
  | none => rfl
  | some rt => exact dictGet_setKey_ne m k k' _ h

/-!
Projection lemmas: which result fields each helper leaves untouched.
-/

@[simp] theorem add_log_first_time (res : AnalysisResult) (t c ty : String)
    (a : Option Int) (s : Option GrSections) : (add_log res t c ty a s).first_time = res.first_time := rfl

@[simp] theorem add_log_last_time (res : AnalysisResult) (t c ty : String)
    (a : Option Int) (s : Option GrSections) : (add_log res t c ty a s).last_time = res.last_time := rfl

@[simp] theorem add_log_race_times (res : AnalysisResult) (t c ty : String)
    (a : Option Int) (s : Option GrSections) : (add_log res t c ty a s).race_times = res.race_times := rfl

@[simp] theorem add_log_race_section_changes (res : AnalysisResult) (t c ty : String)
    (a : Option Int) (s : Option GrSections) :
    (add_log res t c ty a s).race_section_changes = res.race_section_changes := rfl

@[simp] theorem record_first_time (res : AnalysisResult) (rc : Nat) (sid : GrSections)
    (t : String) : (record_section_change res rc sid t).first_time = res.first_time := rfl

@[simp] theorem record_last_time (res : AnalysisResult) (rc : Nat) (sid : GrSections)
    (t : String) : (record_section_change res rc sid t).last_time = res.last_time := rfl

@[simp] theorem record_race_times (res : AnalysisResult) (rc : Nat) (sid : GrSections)
    (t : String) : (record_section_change res rc sid t).race_times = res.race_times := rfl

@[simp] theorem ascl_first_time (res : AnalysisResult) (rc : Nat) (t : String)
    (ai : Int) (sid : GrSections) :
    (add_section_change_log res rc t ai sid).first_time = res.first_time := rfl

@[simp] theorem ascl_last_time (res : AnalysisResult) (rc : Nat) (t : String)
    (ai : Int) (sid : GrSections) :
    (add_section_change_log res rc t ai sid).last_time = res.last_time := rfl

@[simp] theorem ascl_race_times (res : AnalysisResult) (rc : Nat) (t : String)
    (ai : Int) (sid : GrSections) :
    (add_section_change_log res rc t ai sid).race_times = res.race_times := rfl

@[simp] theorem ascl_race_section_changes (res : AnalysisResult) (rc : Nat) (t : String)
    (ai : Int) (sid : GrSections) :
    (add_section_change_log res rc t ai sid).race_section_changes =
      (record_section_change res rc sid t).race_section_changes := rfl

/-!
Effect of record_section_change on the change map: the dedup invariant is
preserved, the written race key becomes present, and presence of race 0
is preserved.
-/

theorem record_dedup (res : AnalysisResult) (rc : Nat) (sid : GrSections) (time : String)
    (h : ∀ p ∈ res.race_section_changes, List.Chain' (fun a b => a ≠ b) p.2) :
    ∀ p ∈ (record_section_change res rc sid time).race_section_changes,
      List.Chain' (fun a b => a ≠ b) p.2 := by
  intro p hp
  have hcl : List.Chain' (fun a b => a ≠ b)
      ((dictGet rc res.race_section_changes).getD []) := by
    cases hd : dictGet rc res.race_section_changes with
    | none => simp
    | some l =>
      have := h (rc, l) (dictGet_mem _ _ _ hd)
      simpa [hd] using this
  unfold record_section_change at hp
  simp only at hp
  rcases mem_setKey _ _ _ _ hp with hpe | hpm
  · subst hpe
    simp only
    split
    · rename_i hcond
      rcases hcond with hnil | hlast
      · simp [hnil]
      · rw [List.chain'_append]
        refine ⟨hcl, List.chain'_singleton _, ?_⟩
        intro x hx y hy
        simp only [List.head?_cons, Option.mem_def, Option.some.injEq] at hy
        subst hy
        intro hxy
        subst hxy
        exact hlast (by simpa using hx)
    · exact hcl
  · exact h p hpm

theorem record_key_isSome (res : AnalysisResult) (rc : Nat) (sid : GrSections) (time : String) :
    (dictGet rc (record_section_change res rc sid time).race_section_changes).isSome := by
  unfold record_section_change
  simp [dictGet_setKey_self]

theorem record_key0_isSome (res : AnalysisResult) (rc : Nat) (sid : GrSections) (time : String)
    (h : (dictGet 0 res.race_section_changes).isSome) :
    (dictGet 0 (record_section_change res rc sid time).race_section_changes).isSome := by
  unfold record_section_change
  by_cases h0 : rc = 0
  · subst h0
    simp [dictGet_setKey_self]
  · simp only
    rw [dictGet_setKey_ne _ _ _ _ (fun hh => h0 hh.symm)]
    exact h

/-!
Counting lemmas for boarding-approach entry transitions.
-/

theorem countBT_append (l : List GrSections) (s : GrSections) (hl : l ≠ []) :
    countBoardingTransitions (l ++ [s]) =
      countBoardingTransitions l +
        (if s = GrSections.SECTION_BOARDINGIC ∧ l.getLast? ≠ some GrSections.SECTION_BOARDINGIC
         then 1 else 0) := by
  induction l with
  | nil => exact absurd rfl hl
  | cons a rest ih =>
    cases rest with
    | nil =>
      by_cases hs : s = GrSections.SECTION_BOARDINGIC <;>
        by_cases ha : a = GrSections.SECTION_BOARDINGIC <;>
          simp [countBoardingTransitions, hs, ha]
    | cons b rest2 =>
      have hth := ih (by simp)
      simp only [List.cons_append, List.append_eq] at hth
      simp only [List.cons_append, countBoardingTransitions, List.getLast?_cons_cons,
        List.append_eq]
      rw [hth]
      omega

theorem specFTT_append_some (l : List (GrSections × String)) (p : GrSections × String)
    (t : String) (hl : specFirstTransitionTime l = some t) :
    specFirstTransitionTime (l ++ [p]) = some t := by
  induction l with
  | nil => simp [specFirstTransitionTime] at hl
  | cons a rest ih =>
    cases rest with
    | nil => simp [specFirstTransitionTime] at hl
    | cons b rest2 =>
      simp only [specFirstTransitionTime] at hl
      simp only [List.cons_append, specFirstTransitionTime]
      split at hl
      · rename_i hcond
        cases a
        cases b
        simp only [List.cons_append]
        rw [if_pos hcond]
        exact hl
      · rename_i hcond
        cases a
        cases b
        simp only [List.cons_append]
        rw [if_neg hcond]
        exact ih hl

theorem specFTT_append_none (l : List (GrSections × String)) (p : GrSections × String)
    (hne : l ≠ []) (hl : specFirstTransitionTime l = none) :
    specFirstTransitionTime (l ++ [p]) =
      (if p.1 = GrSections.SECTION_BOARDINGIC ∧
          (l.getLast?).map Prod.fst ≠ some GrSections.SECTION_BOARDINGIC
       then some p.2 else none) := by
  induction l with
  | nil => exact absurd rfl hne
  | cons a rest ih =>
    cases rest with
    | nil =>
      cases a with
      | mk a1 a2 =>
        cases p with
        | mk p1 p2 =>
          by_cases hp : p1 = GrSections.SECTION_BOARDINGIC <;>
            by_cases ha : a1 = GrSections.SECTION_BOARDINGIC <;>
              simp [specFirstTransitionTime, hp, ha]
    | cons b rest2 =>
      simp only [specFirstTransitionTime] at hl
      split at hl
      · exact absurd hl (by simp)
      · rename_i hcond
        cases a
        cases b
        simp only [List.cons_append, specFirstTransitionTime]
        rw [if_neg hcond]
        rw [List.getLast?_cons_cons]
        exact ih (by simp) hl

theorem specFTT_isSome_iff (l : List (GrSections × String)) :
    (specFirstTransitionTime l).isSome ↔ 1 ≤ countBoardingTransitions (l.map Prod.fst) := by
  induction l with
  | nil => simp [specFirstTransitionTime, countBoardingTransitions]
  | cons a rest ih =>
    cases rest with
    | nil => simp [specFirstTransitionTime, countBoardingTransitions]
    | cons b rest2 =>
      cases a with
      | mk a1 a2 =>
        cases b with
        | mk b1 b2 =>
          simp only [specFirstTransitionTime, List.map_cons, countBoardingTransitions]
          by_cases hc : b1 = GrSections.SECTION_BOARDINGIC ∧ a1 ≠ GrSections.SECTION_BOARDINGIC
          · simp [hc]
          · rw [if_neg hc, if_neg hc]
            simpa using ih

structure ScanInv (st : LoopState) (pairs : List (GrSections × String)) : Prop where
  nonempty : pairs ≠ []
  race_eq : st.race_count = countBoardingTransitions (pairs.map Prod.fst)
  prev_sec : st.prev_section = (pairs.getLast?).map Prod.fst
  time_eq : some st.time = (pairs.getLast?).map Prod.snd
  first_eq : st.res.first_time = (pairs.head?).map Prod.snd
  keys_eq : st.res.race_times.map Prod.fst = List.range (st.race_count + 1)
  change0 : (dictGet 0 st.res.race_section_changes).isSome
  race0 : ∃ f, pairs.head? = some f ∧
    dictGet 0 st.res.race_times = some ⟨f.2, specFirstTransitionTime pairs⟩
  race1 : ∀ t, specFirstTransitionTime pairs = some t →
    ∃ e, dictGet 1 st.res.race_times = some ⟨t, e⟩
  open_race : ∃ s, dictGet st.race_count st.res.race_times = some ⟨s, none⟩
  dedup : ∀ p ∈ st.res.race_section_changes, List.Chain' (fun a b => a ≠ b) p.2

theorem stepParsed_zero_inv (time : String) (s : GrSections) (ca : GPS_AREA)
    (ai : Option Int) (st0 st1 : LoopState)
    (hres : st0.res = ({} : AnalysisResult))
    (h : stepParsed 0 time s ca ai st0 = .ok st1) :
    ScanInv st1 [(s, time)] := by
  unfold stepParsed at h
  rw [hres] at h
  simp only [eq_self_iff_true, if_true] at h
  cases hai : ai with
  | none => rw [hai] at h; simp at h
  | some a =>
    rw [hai] at h
    simp only [Except.ok.injEq] at h
    subst h
    refine ⟨by simp, ?_, ?_, ?_, ?_, ?_, ?_, ?_, ?_, ?_, ?_⟩
    · simp [countBoardingTransitions]
    · simp
    · simp
    · simp
    · simp [setKey, List.range_succ]
    · exact record_key_isSome _ 0 s time
    · refine ⟨(s, time), rfl, ?_⟩
      simp [setKey, dictGet, specFirstTransitionTime]
    · intro t ht
      simp [specFirstTransitionTime] at ht
    · refine ⟨time, ?_⟩
      simp [setKey, dictGet]
    · exact record_dedup _ 0 s time (by intro p hp; simp at hp)

theorem stepParsed_succ_inv (i : Nat) (time : String) (s : GrSections) (ca : GPS_AREA)
    (ai : Option Int) (st0 st' : LoopState) (pairs : List (GrSections × String))
    (hi : i ≠ 0) (hinv : ScanInv st0 pairs)
    (h : stepParsed i time s ca ai st0 = .ok st') :
    ScanInv st' (pairs ++ [(s, time)]) := by
  obtain ⟨hne, hrace, hprev, htime, hfirst, hkeys, hch0, hrace0, hrace1, hopen, hded⟩ := hinv
  obtain ⟨lp, hlp⟩ : ∃ lp, pairs.getLast? = some lp := by
    cases hl : pairs.getLast? with
    | none => exact absurd (List.getLast?_eq_none_iff.mp hl) hne
    | some a => exact ⟨a, rfl⟩
  have hmapne : pairs.map Prod.fst ≠ [] := by simpa using hne
  have hglmap : (pairs.map Prod.fst).getLast? = some lp.1 := by
    rw [List.getLast?_map, hlp]
    rfl
  have hprev' : st0.prev_section = some lp.1 := by
    rw [hprev, hlp]
    rfl
  have hmap' : (pairs ++ [(s, time)]).map Prod.fst = pairs.map Prod.fst ++ [s] := by simp
  have hhead' : (pairs ++ [(s, time)]).head? = pairs.head? :=
    List.head?_append_of_ne_nil _ hne
  have hlast' : (pairs ++ [(s, time)]).getLast? = some (s, time) := List.getLast?_concat _
  have hcount := countBT_append (pairs.map Prod.fst) s hmapne
  unfold stepParsed at h
  rw [if_neg hi] at h
  by_cases hb : (s == GrSections.SECTION_BOARDINGIC &&
      st0.prev_section != some GrSections.SECTION_BOARDINGIC) = true
  · rw [if_pos hb] at h
    simp only [Bool.and_eq_true, beq_iff_eq, bne_iff_ne] at hb
    obtain ⟨hsB, hpB⟩ := hb
    have hlpB : lp.1 ≠ GrSections.SECTION_BOARDINGIC := by
      intro hc
      exact hpB (by rw [hprev', hc])
    have htrig : s = GrSections.SECTION_BOARDINGIC ∧
        (pairs.map Prod.fst).getLast? ≠ some GrSections.SECTION_BOARDINGIC := by
      refine ⟨hsB, ?_⟩
      rw [hglmap]
      simp only [ne_eq, Option.some.injEq]
      exact hlpB
    have hcount' : countBoardingTransitions ((pairs ++ [(s, time)]).map Prod.fst)
        = st0.race_count + 1 := by
      rw [hmap', hcount, if_pos htrig, ← hrace]
    have hfttnone : specFirstTransitionTime pairs = none →
        specFirstTransitionTime (pairs ++ [(s, time)]) = some time := by
      intro hftt
      rw [specFTT_append_none pairs _ hne hftt]
      rw [if_pos ⟨hsB, by rw [hlp]; simp only [Option.map_some', ne_eq, Option.some.injEq]; exact hlpB⟩]
    cases hai : ai with
    | none =>
      rw [hai] at h
      simp at h
    | some a =>
      rw [hai] at h
      simp only [Except.ok.injEq] at h
      subst h
      refine ⟨by simp, ?_, ?_, ?_, ?_, ?_, ?_, ?_, ?_, ?_, ?_⟩
      · exact hcount'.symm
      · simp [hlast']
      · simp [hlast']
      · simp only [ascl_first_time, add_log_first_time]
        rw [hhead']
        exact hfirst
      · simp only [ascl_race_times, add_log_race_times]
        have hk1 : (setEndTime st0.res.race_times st0.race_count time).map Prod.fst
            = List.range (st0.race_count + 1) := by
          rw [map_fst_setEndTime]
          exact hkeys
        have hk2 : st0.race_count + 1 ∉
            (setEndTime st0.res.race_times st0.race_count time).map Prod.fst := by
          rw [hk1]
          simp
        rw [map_fst_setKey_of_not_mem _ _ _ hk2, hk1, ← List.range_succ]
      · simp only [ascl_race_section_changes, add_log_race_section_changes]
        refine record_key0_isSome _ _ _ _ ?_
        simp only [add_log_race_section_changes, ascl_race_section_changes]
        exact record_key0_isSome _ _ _ _ hch0
      · obtain ⟨f, hf, hf0⟩ := hrace0
        refine ⟨f, by rw [hhead']; exact hf, ?_⟩
        simp only [ascl_race_times, add_log_race_times]
        rw [dictGet_setKey_ne _ _ _ _ (by omega)]
        by_cases hrc0 : st0.race_count = 0
        · have hftt0 : specFirstTransitionTime pairs = none := by
            cases hftt : specFirstTransitionTime pairs with
            | none => rfl
            | some t =>
              have := (specFTT_isSome_iff pairs).mp (by simp [hftt])
              omega
          have h0 : dictGet 0 (setEndTime st0.res.race_times st0.race_count time)
              = some ⟨f.2, some time⟩ := by
            rw [hrc0]
            rw [hftt0] at hf0
            exact dictGet_setEndTime_self _ _ _ _ hf0
          rw [h0, hfttnone hftt0]
        · have hpos : 1 ≤ countBoardingTransitions (pairs.map Prod.fst) := by omega
          obtain ⟨t, hftt⟩ := Option.isSome_iff_exists.mp ((specFTT_isSome_iff pairs).mpr hpos)
          rw [dictGet_setEndTime_ne _ _ _ _ (fun hc => hrc0 hc.symm)]
          rw [hftt] at hf0
          rw [specFTT_append_some pairs _ t hftt]
          exact hf0
      · intro t' ht'
        simp only [ascl_race_times, add_log_race_times]
        by_cases hrc0 : st0.race_count = 0
        · have hftt0 : specFirstTransitionTime pairs = none := by
            cases hftt : specFirstTransitionTime pairs with
            | none => rfl
            | some t =>
              have := (specFTT_isSome_iff pairs).mp (by simp [hftt])
              omega
          rw [hfttnone hftt0] at ht'
          have ht'' : t' = time := by injection ht' with hh; exact hh.symm
          subst ht''
          refine ⟨none, ?_⟩
          rw [hrc0]
          exact dictGet_setKey_self _ _ _
        · have hpos : 1 ≤ countBoardingTransitions (pairs.map Prod.fst) := by omega
          obtain ⟨t, hftt⟩ := Option.isSome_iff_exists.mp ((specFTT_isSome_iff pairs).mpr hpos)
          rw [specFTT_append_some pairs _ t hftt] at ht'
          have ht'' : t' = t := by injection ht' with hh; exact hh.symm
          subst ht''
          obtain ⟨e, he⟩ := hrace1 t' hftt
          by_cases hrc1 : st0.race_count = 1
          · refine ⟨some time, ?_⟩
            rw [dictGet_setKey_ne _ _ _ _ (by omega)]
            rw [hrc1]
            exact dictGet_setEndTime_self _ _ _ _ he
          · refine ⟨e, ?_⟩
            rw [dictGet_setKey_ne _ _ _ _ (by omega)]
            rw [dictGet_setEndTime_ne _ _ _ _ (fun hc => hrc1 hc.symm)]
            exact he
      · refine ⟨time, ?_⟩
        simp only [ascl_race_times, add_log_race_times]
        exact dictGet_setKey_self _ _ _
      · simp only [ascl_race_section_changes, add_log_race_section_changes]
        refine record_dedup _ _ _ _ ?_
        simp only [add_log_race_section_changes, ascl_race_section_changes]
        exact record_dedup _ _ _ _ hded
  · rw [if_neg hb] at h
    have hb' : s = GrSections.SECTION_BOARDINGIC → lp.1 = GrSections.SECTION_BOARDINGIC := by
      intro hsB
      by_contra hlpB
      exact hb (by simp [hsB, hprev', hlpB])
    have hcount0 : countBoardingTransitions ((pairs ++ [(s, time)]).map Prod.fst)
        = st0.race_count := by
      rw [hmap', hcount,
        if_neg (by rintro ⟨h1, h2⟩; exact h2 (by rw [hglmap, hb' h1]))]
      omega
    have hftteq : specFirstTransitionTime (pairs ++ [(s, time)])
        = specFirstTransitionTime pairs := by
      cases hftt : specFirstTransitionTime pairs with
      | some t => exact specFTT_append_some _ _ _ hftt
      | none =>
        rw [specFTT_append_none pairs _ hne hftt,
          if_neg (by
            rintro ⟨h1, h2⟩
            refine h2 ?_
            rw [hlp]
            simp only [Option.map_some']
            rw [hb' h1])]
    by_cases hneq : some s ≠ st0.prev_section
    · rw [if_pos hneq] at h
      cases hai : ai with
      | none =>
        rw [hai] at h
        simp at h
      | some a =>
        rw [hai] at h
        simp only [Except.ok.injEq] at h
        subst h
        refine ⟨by simp, ?_, ?_, ?_, ?_, ?_, ?_, ?_, ?_, ?_, ?_⟩
        · exact hcount0.symm
        · simp [hlast']
        · simp [hlast']
        · simp only [ascl_first_time]
          rw [hhead']
          exact hfirst
        · simp only [ascl_race_times]
          exact hkeys
        · simp only [ascl_race_section_changes]
          exact record_key0_isSome _ _ _ _ hch0
        · obtain ⟨f, hf, hf0⟩ := hrace0
          refine ⟨f, by rw [hhead']; exact hf, ?_⟩
          simp only [ascl_race_times]
          rw [hftteq]
          exact hf0
        · intro t' ht'
          rw [hftteq] at ht'
          obtain ⟨e, he⟩ := hrace1 t' ht'
          refine ⟨e, ?_⟩
          simp only [ascl_race_times]
          exact he
        · obtain ⟨s2, hs2⟩ := hopen
          refine ⟨s2, ?_⟩
          simp only [ascl_race_times]
          exact hs2
        · simp only [ascl_race_section_changes]
          exact record_dedup _ _ _ _ hded
    · rw [if_neg hneq] at h
      simp only [Except.ok.injEq] at h
      subst h
      refine ⟨by simp, ?_, ?_, ?_, ?_, ?_, ?_, ?_, ?_, ?_, ?_⟩
      · exact hcount0.symm
      · simp [hlast']
      · simp [hlast']
      · rw [hhead']
        exact hfirst
      · exact hkeys
      · exact hch0
      · obtain ⟨f, hf, hf0⟩ := hrace0
        refine ⟨f, by rw [hhead']; exact hf, ?_⟩
        rw [hftteq]
        exact hf0
      · intro t' ht'
        rw [hftteq] at ht'
        exact hrace1 t' ht'
      · exact hopen
      · exact hded

theorem stepRow_zero_inv (fn : List String) (ak : Option String) (sk : String)
    (vals : Row) (st0 st1 : LoopState) (hres : st0.res = ({} : AnalysisResult))
    (h : stepRow fn ak sk 0 vals st0 = .ok st1) :
    ScanInv st1 [(specParsedSection fn sk vals, specParsedTime fn vals)] := by
  unfold stepRow at h
  cases ht : rowGet fn vals "time" with
  | none =>
    rw [ht] at h
    simp at h
  | some timeRaw =>
    rw [ht] at h
    cases hs : rowGet fn vals sk with
    | none =>
      rw [hs] at h
      simp at h
    | some sectionRaw =>
      rw [hs] at h
      cases hpa : parseArea fn ak st0.area_int vals with
      | mk ca ai =>
        rw [hpa] at h
        have hsec : specParsedSection fn sk vals
            = (STR_TO_ENUM (pyStrip sectionRaw)).getD GrSections.SECTION_UNKNOWN := by
          unfold specParsedSection
          rw [hs]
          rfl
        have htm : specParsedTime fn vals = pyStrip timeRaw := by
          unfold specParsedTime
          rw [ht]
          rfl
        rw [hsec, htm]
        exact stepParsed_zero_inv _ _ _ _ _ _ hres h

theorem stepRow_succ_inv (fn : List String) (ak : Option String) (sk : String)
    (i : Nat) (vals : Row) (st0 st1 : LoopState) (pairs : List (GrSections × String))
    (hi : i ≠ 0) (hinv : ScanInv st0 pairs)
    (h : stepRow fn ak sk i vals st0 = .ok st1) :
    ScanInv st1 (pairs ++ [(specParsedSection fn sk vals, specParsedTime fn vals)]) := by
  unfold stepRow at h
  cases ht : rowGet fn vals "time" with
  | none =>
    rw [ht] at h
    simp at h
  | some timeRaw =>
    rw [ht] at h
    cases hs : rowGet fn vals sk with
    | none =>
      rw [hs] at h
      simp at h
    | some sectionRaw =>
      rw [hs] at h
      cases hpa : parseArea fn ak st0.area_int vals with
      | mk ca ai =>
        rw [hpa] at h
        have hsec : specParsedSection fn sk vals
            = (STR_TO_ENUM (pyStrip sectionRaw)).getD GrSections.SECTION_UNKNOWN := by
          unfold specParsedSection
          rw [hs]
          rfl
        have htm : specParsedTime fn vals = pyStrip timeRaw := by
          unfold specParsedTime
          rw [ht]
          rfl
        rw [hsec, htm]
        exact stepParsed_succ_inv _ _ _ _ _ _ _ _ hi hinv h

theorem runRows_inv (fn : List String) (ak : Option String) (sk : String) :
    ∀ (rows : List Row) (i : Nat) (st st' : LoopState) (pairs : List (GrSections × String)),
      i ≠ 0 → ScanInv st pairs →
      runRows fn ak sk i rows st = .ok st' →
      ScanInv st' (pairs ++ rows.map (fun v => (specParsedSection fn sk v, specParsedTime fn v))) := by
  intro rows
  induction rows with
  | nil =>
    intro i st st' pairs hi hinv h
    simp only [runRows, Except.ok.injEq] at h
    subst h
    simpa using hinv
  | cons v rest ih =>
    intro i st st' pairs hi hinv h
    simp only [runRows] at h
    cases hs : stepRow fn ak sk i v st with
    | error e =>
      rw [hs] at h
      simp at h
    | ok st1 =>
      rw [hs] at h
      have h1 := stepRow_succ_inv fn ak sk i v st st1 pairs hi hinv hs
      have h2 := ih (i + 1) st1 st'
        (pairs ++ [(specParsedSection fn sk v, specParsedTime fn v)])
        (Nat.succ_ne_zero i) h1 h
      simpa [List.append_assoc] using h2

theorem finishScan_ok (st stF : LoopState) (pairs : List (GrSections × String))
    (hinv : ScanInv st pairs) (h : finishScan st = .ok stF) :
    stF.res.first_time = (pairs.head?).map Prod.snd ∧
    stF.res.last_time = (pairs.getLast?).map Prod.snd ∧
    stF.res.total_race_count = countBoardingTransitions (pairs.map Prod.fst) ∧
    stF.res.race_times.map Prod.fst = List.range (stF.res.total_race_count + 1) ∧
    (dictGet 0 stF.res.race_section_changes).isSome ∧
    (∃ f, pairs.head? = some f ∧ ∃ rt0, dictGet 0 stF.res.race_times = some rt0 ∧
       rt0.start = f.2 ∧
       (∀ t, specFirstTransitionTime pairs = some t → rt0.endTime = some t)) ∧
    (∀ t, specFirstTransitionTime pairs = some t →
       ∃ rt1, dictGet 1 stF.res.race_times = some rt1 ∧ rt1.start = t) ∧
    (∃ rtN, dictGet stF.res.total_race_count stF.res.race_times = some rtN ∧
       rtN.endTime = stF.res.last_time) ∧
    (∀ p ∈ stF.res.race_section_changes, List.Chain' (fun a b => a ≠ b) p.2) := by
  obtain ⟨hne, hrace, hprev, htime, hfirst, hkeys, hch0, hrace0, hrace1, hopen, hded⟩ := hinv
  unfold finishScan at h
  cases hai : st.area_int with
  | none =>
    rw [hai] at h
    simp at h
  | some ai =>
    rw [hai] at h
    cases hsi : st.section_id with
    | none =>
      rw [hsi] at h
      simp at h
    | some sid =>
      rw [hsi] at h
      simp only [Except.ok.injEq] at h
      subst h
      have hmax : max 0 st.race_count = st.race_count := max_eq_right (Nat.zero_le _)
      refine ⟨?_, ?_, ?_, ?_, ?_, ?_, ?_, ?_, ?_⟩
      · simp only [ascl_first_time]
        exact hfirst
      · simp only [ascl_last_time]
        exact htime
      · simp only [hmax]
        exact hrace
      · simp only [ascl_race_times, hmax, map_fst_setEndTime]
        rw [hkeys, hrace]
      · simp only [ascl_race_section_changes]
        exact record_key0_isSome _ _ _ _ hch0
      · obtain ⟨f, hf, hf0⟩ := hrace0
        by_cases hrc0 : st.race_count = 0
        · have hftt0 : specFirstTransitionTime pairs = none := by
            cases hftt : specFirstTransitionTime pairs with
            | none => rfl
            | some t =>
              have := (specFTT_isSome_iff pairs).mp (by simp [hftt])
              omega
          refine ⟨f, hf, ⟨f.2, some st.time⟩, ?_, rfl, ?_⟩
          · simp only [ascl_race_times]
            rw [hrc0]
            rw [hftt0] at hf0
            exact dictGet_setEndTime_self _ _ _ _ hf0
          · intro t ht
            rw [hftt0] at ht
            exact absurd ht (by simp)
        · refine ⟨f, hf, ⟨f.2, specFirstTransitionTime pairs⟩, ?_, rfl, ?_⟩
          · simp only [ascl_race_times]
            rw [dictGet_setEndTime_ne _ _ _ _ (fun hc => hrc0 hc.symm)]
            exact hf0
          · intro t ht
            rw [ht]
      · intro t ht
        obtain ⟨e, he⟩ := hrace1 t ht
        by_cases hrc1 : st.race_count = 1
        · refine ⟨⟨t, some st.time⟩, ?_, rfl⟩
          simp only [ascl_race_times]
          rw [hrc1]
          exact dictGet_setEndTime_self _ _ _ _ he
        · refine ⟨⟨t, e⟩, ?_, rfl⟩
          simp only [ascl_race_times]
          rw [dictGet_setEndTime_ne _ _ _ _ (fun hc => hrc1 hc.symm)]
          exact he
      · obtain ⟨s2, hs2⟩ := hopen
        refine ⟨⟨s2, some st.time⟩, ?_, by simp only [ascl_last_time]⟩
        simp only [ascl_race_times, ascl_last_time, hmax]
        exact dictGet_setEndTime_self _ _ _ _ hs2
      · simp only [ascl_race_section_changes]
        exact record_dedup _ _ _ _ hded

theorem analyzeCore_ok_inv (csv : CsvData) (stF : LoopState)
    (h : analyzeCore csv = .ok stF) :
    stF.res.first_time = ((specParsedPairs csv).head?).map Prod.snd ∧
    stF.res.last_time = ((specParsedPairs csv).getLast?).map Prod.snd ∧
    stF.res.total_race_count = specBoardingTransitionCount csv ∧
    stF.res.race_times.map Prod.fst = List.range (stF.res.total_race_count + 1) ∧
    (dictGet 0 stF.res.race_section_changes).isSome ∧
    (∃ f, (specParsedPairs csv).head? = some f ∧
       ∃ rt0, dictGet 0 stF.res.race_times = some rt0 ∧ rt0.start = f.2 ∧
         (∀ t, specFirstTransitionTime (specParsedPairs csv) = some t →
            rt0.endTime = some t)) ∧
    (∀ t, specFirstTransitionTime (specParsedPairs csv) = some t →
       ∃ rt1, dictGet 1 stF.res.race_times = some rt1 ∧ rt1.start = t) ∧
    (∃ rtN, dictGet stF.res.total_race_count stF.res.race_times = some rtN ∧
       rtN.endTime = stF.res.last_time) ∧
    (∀ p ∈ stF.res.race_section_changes, List.Chain' (fun a b => a ≠ b) p.2) := by
  simp only [analyzeCore] at h
  cases hfk : findKey (csv.header.map pyStrip) "section" with
  | none =>
    rw [hfk] at h
    simp at h
  | some sk =>
    rw [hfk] at h
    cases hrows : csv.rows with
    | nil =>
      rw [hrows] at h
      simp only [runRows] at h
      simp [finishScan] at h
    | cons v rest =>
      rw [hrows] at h
      simp only [runRows] at h
      cases hs0 : stepRow (csv.header.map pyStrip) (findKey (csv.header.map pyStrip) "area") sk 0 v {} with
      | error e =>
        rw [hs0] at h
        simp at h
      | ok st1 =>
        rw [hs0] at h
        simp only [Nat.zero_add] at h
        cases hrr : runRows (csv.header.map pyStrip) (findKey (csv.header.map pyStrip) "area") sk 1 rest st1 with
        | error e =>
          rw [hrr] at h
          simp at h
        | ok st2 =>
          rw [hrr] at h
          have h1 := stepRow_zero_inv _ _ _ v {} st1 rfl hs0
          have h2 := runRows_inv _ _ _ rest 1 st1 st2 _ (by omega) h1 hrr
          have hpairs : specParsedPairs csv =
              [(specParsedSection (csv.header.map pyStrip) sk v,
                specParsedTime (csv.header.map pyStrip) v)] ++
              rest.map (fun w => (specParsedSection (csv.header.map pyStrip) sk w,
                specParsedTime (csv.header.map pyStrip) w)) := by
            simp only [specParsedPairs]
            rw [hfk, hrows]
            simp
          rw [hpairs]
          have hcnt : specBoardingTransitionCount csv =
              countBoardingTransitions ((([(specParsedSection (csv.header.map pyStrip) sk v,
                specParsedTime (csv.header.map pyStrip) v)] ++
                rest.map (fun w => (specParsedSection (csv.header.map pyStrip) sk w,
                  specParsedTime (csv.header.map pyStrip) w)))).map Prod.fst) := by
            unfold specBoardingTransitionCount
            rw [hpairs]
          rw [hcnt]
          exact finishScan_ok st2 stF _ h2 h

theorem analyzeResult_ok_core (csv : CsvData) (res : AnalysisResult)
    (h : analyzeResult csv = .ok res) :
    ∃ stF, analyzeCore csv = .ok stF ∧ stF.res = res := by
  unfold analyzeResult at h
  cases hc : analyzeCore csv with
  | error e =>
    rw [hc] at h
    cases e
    simp at h
  | ok stF =>
    rw [hc] at h
    simp only [Except.ok.injEq] at h
    exact ⟨stF, rfl, h⟩

/-!
Concrete inputs used by the scenario claim and the witnesses.
-/

/-- The four-row scenario input of the spec (boarding-approach entered at t2,
duplicated at t3, left at t4). -/
def csvW : CsvData :=
  { header := ["time", "section", "area"]
    rows := [["t1", "ENTERING", "0"], ["t2", "BOARDING_IC", "0"],
             ["t3", "BOARDING_IC", "0"], ["t4", "ENTERING", "0"]] }

/-- The analysis result of the scenario input. -/
def resW : AnalysisResult :=
  match analyzeResult csvW with
  | .ok r => r
  | .error _ => {}

/-- A non-empty input whose header has no area column. -/
def csvNoArea : CsvData :=
  { header := ["time", "section"]
    rows := [["2024-01-01 00:00:00.000", "ENTERING"]] }

/-- A one-row input whose area value is non-numeric and whose section label
maps to nothing. -/
def csvBadArea : CsvData :=
  { header := ["time", "section", "area"]
    rows := [["t1", "garbage", "abc"]] }

/-- The loop state before any row is processed. -/
def initLoopState : LoopState := {}

/-- Claim C1: total_race_count equals the number of boarding-approach entry
transitions (rows whose section becomes SECTION_BOARDINGIC from a different
previous section, the first row excluded), which is also the highest race
index reached; race 0 is always a key of race_times and
race_section_changes but is not counted. -/
theorem analyze_total_race_count_correct (csv : CsvData) (res : AnalysisResult)
    (h : analyzeResult csv = .ok res) :
    res.total_race_count = specBoardingTransitionCount csv ∧
    res.race_times.map Prod.fst = List.range (res.total_race_count + 1) ∧
    (dictGet 0 res.race_times).isSome ∧
    (dictGet 0 res.race_section_changes).isSome := by
  obtain ⟨stF, hc, hres⟩ := analyzeResult_ok_core csv res h
  obtain ⟨h1, h2, h3, h4, h5, h6, h7, h8, h9⟩ := analyzeCore_ok_inv csv stF hc
  subst hres
  refine ⟨h3, h4, ?_, h5⟩
  rw [dictGet_isSome_iff, h4]
  simp

theorem analyze_total_race_count_correct_witness :
    analyzeResult csvW = .ok resW ∧
    (resW.total_race_count = specBoardingTransitionCount csvW ∧
     resW.race_times.map Prod.fst = List.range (resW.total_race_count + 1) ∧
     (dictGet 0 resW.race_times).isSome ∧
     (dictGet 0 resW.race_section_changes).isSome) :=
  ⟨by decide, analyze_total_race_count_correct csvW resW (by decide)⟩

/-- Claim C2 (code bug): with the area column absent, the source is meant to
treat every row as Area-unknown and finish, but every call of
_add_section_change_log passes the loop local area_int, which is never
assigned when no area column exists, so the first row raises
UnboundLocalError instead of completing. -/
theorem analyze_no_area_column_raises :
    findKey (csvNoArea.header.map pyStrip) "area" = none ∧
    analyzeResult csvNoArea = .error (.unboundLocalError "area_int") := by
  exact ⟨by decide, by decide⟩

/-- Claim C3: a header with no section column (matched case-insensitively
after trimming) makes analyze raise the KeyError immediately; the error
reaches the caller unmodified and the state at the raise point holds zero
log entries, zero race_times entries and zero race_section_changes
entries. -/
theorem analyze_missing_section_raises (csv : CsvData)
    (h : findKey (csv.header.map pyStrip) "section" = none) :
    analyzeCore csv = .error (.keyError missingSectionMsg, initLoopState) ∧
    analyzeResult csv = .error (.keyError missingSectionMsg) ∧
    initLoopState.res.logs = [] ∧
    initLoopState.res.race_times = [] ∧
    initLoopState.res.race_section_changes = [] := by
  have hc : analyzeCore csv = .error (.keyError missingSectionMsg, initLoopState) := by
    simp only [analyzeCore]
    rw [h]
    rfl
  refine ⟨hc, ?_, rfl, rfl, rfl⟩
  unfold analyzeResult
  rw [hc]

theorem analyze_missing_section_raises_witness :
    findKey ((CsvData.mk ["time", "Area"] [["x", "1"]]).header.map pyStrip) "section" = none ∧
    (analyzeCore (CsvData.mk ["time", "Area"] [["x", "1"]]) =
       .error (.keyError missingSectionMsg, initLoopState) ∧
     analyzeResult (CsvData.mk ["time", "Area"] [["x", "1"]]) =
       .error (.keyError missingSectionMsg) ∧
     initLoopState.res.logs = [] ∧
     initLoopState.res.race_times = [] ∧
     initLoopState.res.race_section_changes = []) :=
  ⟨by decide, analyze_missing_section_raises (CsvData.mk ["time", "Area"] [["x", "1"]]) (by decide)⟩

/-- Claim C4: every change list in race_section_changes of a successful
analysis contains no two adjacent identical (section, timestamp) pairs,
because _record_section_change compares a candidate with the last-appended
pair of the race and skips equal ones. -/
theorem race_section_changes_no_adjacent_duplicates (csv : CsvData) (res : AnalysisResult)
    (h : analyzeResult csv = .ok res) (r : Nat) (l : List (GrSections × String))
    (hmem : (r, l) ∈ res.race_section_changes) :
    List.Chain' (fun a b => a ≠ b) l := by
  obtain ⟨stF, hc, hres⟩ := analyzeResult_ok_core csv res h
  obtain ⟨h1, h2, h3, h4, h5, h6, h7, h8, h9⟩ := analyzeCore_ok_inv csv stF hc
  subst hres
  exact h9 (r, l) hmem

theorem race_section_changes_no_adjacent_duplicates_witness :
    (analyzeResult csvW = .ok resW ∧
     (0, [(GrSections.SECTION_ENTERING, "t1"), (GrSections.SECTION_BOARDINGIC, "t2")])
       ∈ resW.race_section_changes) ∧
    List.Chain' (fun a b => a ≠ b)
      [(GrSections.SECTION_ENTERING, "t1"), (GrSections.SECTION_BOARDINGIC, "t2")] :=
  ⟨⟨by decide, by decide⟩,
   race_section_changes_no_adjacent_duplicates csvW resW (by decide) 0 _ (by decide)⟩

/-- Claim C5: race 0 starts at first_time, which is the first row's
timestamp; the last race's end is last_time, the final row's timestamp;
and when a boarding-approach transition exists, race 0 ends at the
timestamp of the first such transition, which is also race 1's start. -/
theorem analyze_race_boundaries (csv : CsvData) (res : AnalysisResult)
    (h : analyzeResult csv = .ok res) :
    res.first_time = ((specParsedPairs csv).head?).map Prod.snd ∧
    res.last_time = ((specParsedPairs csv).getLast?).map Prod.snd ∧
    (∃ rt0, dictGet 0 res.race_times = some rt0 ∧ res.first_time = some rt0.start ∧
       (∀ t, specFirstTransitionTime (specParsedPairs csv) = some t →
          rt0.endTime = some t)) ∧
    (∀ t, specFirstTransitionTime (specParsedPairs csv) = some t →
       ∃ rt1, dictGet 1 res.race_times = some rt1 ∧ rt1.start = t) ∧
    (∃ rtN, dictGet res.total_race_count res.race_times = some rtN ∧
       rtN.endTime = res.last_time) := by
  obtain ⟨stF, hc, hres⟩ := analyzeResult_ok_core csv res h
  obtain ⟨h1, h2, h3, h4, h5, h6, h7, h8, h9⟩ := analyzeCore_ok_inv csv stF hc
  subst hres
  obtain ⟨f, hf, rt0, hget0, hstart0, hend0⟩ := h6
  refine ⟨h1, h2, ⟨rt0, hget0, ?_, hend0⟩, h7, h8⟩
  rw [h1, hf, hstart0]
  rfl

theorem analyze_race_boundaries_witness :
    analyzeResult csvW = .ok resW ∧
    (resW.first_time = ((specParsedPairs csvW).head?).map Prod.snd ∧
     resW.last_time = ((specParsedPairs csvW).getLast?).map Prod.snd ∧
     (∃ rt0, dictGet 0 resW.race_times = some rt0 ∧ resW.first_time = some rt0.start ∧
        (∀ t, specFirstTransitionTime (specParsedPairs csvW) = some t →
           rt0.endTime = some t)) ∧
     (∀ t, specFirstTransitionTime (specParsedPairs csvW) = some t →
        ∃ rt1, dictGet 1 resW.race_times = some rt1 ∧ rt1.start = t) ∧
     (∃ rtN, dictGet resW.total_race_count resW.race_times = some rtN ∧
        rtN.endTime = resW.last_time)) :=
  ⟨by decide, analyze_race_boundaries csvW resW (by decide)⟩

/-- Claim C6: on the four-row scenario, race 0 spans t1..t2, race 1 spans
t2..t4, one race is counted, race 0's change list is exactly the entering
entry followed by the boarding entry, and the duplicate boarding row at t3
contributes no entry anywhere. -/
theorem scenario_duplicate_boarding_rows :
    analyzeResult csvW = .ok resW ∧
    dictGet 0 resW.race_times = some ⟨"t1", some "t2"⟩ ∧
    dictGet 1 resW.race_times = some ⟨"t2", some "t4"⟩ ∧
    resW.total_race_count = 1 ∧
    dictGet 0 resW.race_section_changes =
      some [(GrSections.SECTION_ENTERING, "t1"), (GrSections.SECTION_BOARDINGIC, "t2")] ∧
    (∀ p ∈ resW.race_section_changes, ∀ q ∈ p.2, q.2 ≠ "t3") ∧
    (∀ e ∈ resW.logs, e.time ≠ "t3") := by
  decide

/-- Claim C7 (code bug): the section fallback works (a garbage label maps
to SECTION_UNKNOWN) and the area fallback assigns GPS_UNKNOWN to
current_area_id, but a non-numeric area value on the first row leaves the
area_int local unassigned, so the pass aborts with UnboundLocalError
instead of continuing. -/
theorem analyze_bad_area_first_row_raises :
    (STR_TO_ENUM (pyStrip "garbage")).getD GrSections.SECTION_UNKNOWN
      = GrSections.SECTION_UNKNOWN ∧
    (parseArea (csvBadArea.header.map pyStrip)
       (findKey (csvBadArea.header.map pyStrip) "area") none ["t1", "garbage", "abc"]).1
      = GPS_AREA.GPS_UNKNOWN ∧
    analyzeResult csvBadArea = .error (.unboundLocalError "area_int") := by
  decide

/-- Claim C8: the analyze method resets every instance field before
scanning, so its outcome does not depend on the incoming instance state,
and re-running it on the instance it returned reproduces the same
result. -/
theorem analyze_instance_state_independent (a b : LogAnalyzer) (csv : CsvData) :
    LogAnalyzer.analyze a csv = LogAnalyzer.analyze b csv ∧
    LogAnalyzer.analyze (LogAnalyzer.analyze a csv).1 csv = LogAnalyzer.analyze a csv :=
  ⟨rfl, rfl⟩

/-- Claim C9 counterexample: an AnalysisResult whose timestamps are both
set, one of them to the empty string, makes the export routine write
nothing, although the claim promises output whenever both are set. -/
theorem save_logs_set_empty_string_counterexample :
    (({ first_time := some "", last_time := some "2024-01-01 00:00:00.000" }
        : AnalysisResult)).first_time.isSome ∧
    (({ first_time := some "", last_time := some "2024-01-01 00:00:00.000" }
        : AnalysisResult)).last_time.isSome ∧
    save_logs_to_txt { first_time := some "", last_time := some "2024-01-01 00:00:00.000" }
      = none := by
  decide

/-- Claim C9 as amended: the export fails fast exactly when a timestamp is
unset or empty (Python truthiness), and otherwise writes the header with
the time span and total race count followed by every log entry in order,
RACE_INFO entries as banner lines and other entries as bracketed
timestamp plus context. -/
theorem save_logs_to_txt_spec (res : AnalysisResult) :
    ((res.first_time = none ∨ res.first_time = some "" ∨
      res.last_time = none ∨ res.last_time = some "") →
      save_logs_to_txt res = none) ∧
    (∀ ft lt, res.first_time = some ft → res.last_time = some lt → ft ≠ "" → lt ≠ "" →
      save_logs_to_txt res = some
        (pyReplaceColon ft ++ "~" ++ pyReplaceColon lt ++ ".txt",
         ("전체 시간대: " ++ ft ++ " - " ++ lt ++ "\n") ::
         ("총 레이스 횟수: " ++ toString res.total_race_count ++ "\n\n") ::
         res.logs.map renderEntry)) := by
  constructor
  · intro hcase
    unfold save_logs_to_txt
    have hcond : ¬ pyTruthy res.first_time ∨ ¬ pyTruthy res.last_time := by
      rcases hcase with h | h | h | h
      · left
        simp [pyTruthy, h]
      · left
        simp [pyTruthy, h]
      · right
        simp [pyTruthy, h]
      · right
        simp [pyTruthy, h]
    rw [if_pos hcond]
  · intro ft lt hf hl hf0 hl0
    unfold save_logs_to_txt
    have hcond : ¬ (¬ pyTruthy res.first_time ∨ ¬ pyTruthy res.last_time) := by
      simp [pyTruthy, hf, hl, hf0, hl0]
    rw [if_neg hcond]
    simp [hf, hl]

def resExport : AnalysisResult :=
  { first_time := some "a:b"
    last_time := some "c"
    total_race_count := 2
    logs := [{ time := "x", context := "============== RACE 1 START ==============",
               log_type := "RACE_INFO" },
             { time := "ts", context := "ENTERING", log_type := "SECTION_CHANGE" }] }

theorem save_logs_to_txt_spec_witness :
    save_logs_to_txt resExport = some
      ("a_b~c.txt",
       ["전체 시간대: a:b - c\n", "총 레이스 횟수: 2\n\n",
        "\n============== RACE 1 START ==============\n",
        "[ts]     ENTERING\n"]) :=
  (save_logs_to_txt_spec resExport).2 "a:b" "c" rfl rfl (by decide) (by decide)

/-- Claim C10: an input with only a header row containing the section
column makes analyze raise: after the empty loop the code stores the empty
string as last_time and then reads the never-assigned area_int local, so
the caller receives an UnboundLocalError and no result. -/
theorem analyze_header_only_raises (header : List String) (k : String)
    (h : findKey (header.map pyStrip) "section" = some k) :
    analyzeResult { header := header, rows := [] } = .error (.unboundLocalError "area_int") ∧
    analyzeCore { header := header, rows := [] } =
      .error (.unboundLocalError "area_int",
        { res := { last_time := some "" } }) := by
  have hc : analyzeCore { header := header, rows := [] } =
      .error (.unboundLocalError "area_int", { res := { last_time := some "" } }) := by
    simp only [analyzeCore]
    rw [h]
    rfl
  refine ⟨?_, hc⟩
  unfold analyzeResult
  rw [hc]

theorem analyze_header_only_raises_witness :
    findKey ((["time", "section"] : List String).map pyStrip) "section" = some "section" ∧
    (analyzeResult { header := ["time", "section"], rows := [] } =
       .error (.unboundLocalError "area_int") ∧
     analyzeCore { header := ["time", "section"], rows := [] } =
       .error (.unboundLocalError "area_int",
         { res := { last_time := some "" } })) :=
  ⟨by decide, analyze_header_only_raises ["time", "section"] "section" (by decide)⟩
